import Mathlib

/-!
Verification of the home-assistant Datadog forwarder (`src/__init__.py`).

The development shallowly embeds the program's data model and operations:

* `MetricId`, `Value` embed the two namedtuples of the source (tags are the
  tuple of strings the source stores, kept as a `List String` in arrival
  order, since Python tuple equality is positional).
* `send_values_series` embeds the grouping/sorting transform of
  `send_values`: a `defaultdict` keyed by `MetricId` (insertion-ordered,
  per-key append) followed by a stable in-place sort of each point list by
  timestamp.  The actual HTTP submission is abstracted as a function
  `sink : List MetricSeries → SinkRes` that either returns an error list
  (the `IntakePayloadAccepted.errors` field) or raises.
* `ValueBuffer.buffer_or_send` embeds the buffering method, with the wall
  clock `ts()` passed in as the integer `now`.
* `state_changed_listener` embeds the event handler; the collaborator
  `homeassistant.helpers.state.state_as_number` is a parameter returning
  `Option ℚ` (`none` models the `ValueError` branch caught by the handler).
  Python numbers are modelled as `ℚ`; no arithmetic is performed on them,
  they are only moved around, so this is faithful for every claim below.
-/

namespace DatadogForwarder

/-- Embeds `MetricId = namedtuple("MetricId", ["name", "tags", "unit"])`.
Tuple equality in Python is componentwise and positional, which the derived
`DecidableEq` mirrors. -/
structure MetricId where
  name : String
  tags : List String
  unit : String
deriving DecidableEq, Repr

/-- Embeds `Value = namedtuple("Value", ["id", "timestamp", "value"])`. -/
structure Value where
  id : MetricId
  timestamp : Int
  value : ℚ
deriving DecidableEq, Repr

/-- Embeds `MetricPoint(timestamp=..., value=...)`. -/
structure MetricPoint where
  timestamp : Int
  value : ℚ
deriving DecidableEq, Repr

/-- Embeds `MetricIntakeType`; the source only ever uses `GAUGE`. -/
inductive MetricIntakeType where
  | gauge
deriving DecidableEq, Repr

/-- Embeds `MetricSeries(metric=..., points=..., tags=..., unit=..., type=...)`. -/
structure MetricSeries where
  metric : String
  points : List MetricPoint
  tags : List String
  unit : String
  type : MetricIntakeType
deriving DecidableEq, Repr

/-- The keys of the `defaultdict` `by_name` in `send_values`, in first-insertion
order (Python dicts iterate in insertion order). -/
def insertionKeys (values : List Value) : List MetricId :=
  values.foldl (fun ks v => if v.id ∈ ks then ks else ks ++ [v.id]) []

/-- The point list accumulated for one key of `by_name`: all values with that
exact id, in arrival order, as `MetricPoint`s. -/
def pointsFor (values : List Value) (id : MetricId) : List MetricPoint :=
  (values.filter fun v => decide (v.id = id)).map fun v => ⟨v.timestamp, v.value⟩

/-- Stable insert used by `sortPoints`: the element is placed before the first
element with a timestamp greater than or equal to its own. -/
def insertPoint (p : MetricPoint) : List MetricPoint → List MetricPoint
  | [] => [p]
  | q :: qs => if p.timestamp ≤ q.timestamp then p :: q :: qs else q :: insertPoint p qs

/-- Embeds `points.sort(key=lambda p: p.timestamp)`: Python's `list.sort` is a
stable sort by the key, realised here as a stable insertion sort. -/
def sortPoints : List MetricPoint → List MetricPoint
  | [] => []
  | p :: ps => insertPoint p (sortPoints ps)

/-- Embeds the series-building part of `send_values`: group the values by
`MetricId`, sort each group's points by timestamp (stable), and build one
`MetricSeries` per group with the id's name, tags and unit. -/
def send_values_series (values : List Value) : List MetricSeries :=
  (insertionKeys values).map fun id =>
    ⟨id.name, sortPoints (pointsFor values id), id.tags, id.unit, MetricIntakeType.gauge⟩

/-- Outcome of the sink submission `api.submit_metrics(body=body)`: either a
normal return carrying the `errors` list of the response, or a raised
exception carrying a message. -/
inductive SinkRes where
  | ok (errors : List String)
  | exn (msg : String)
deriving DecidableEq, Repr

/-- Embeds the mutable state of `class ValueBuffer`: `_b`, `_last_send`,
`_flush_period_sec` (`_conf` is absorbed into the sink function). -/
structure ValueBuffer where
  b : List Value
  last_send : Int
  flush_period_sec : Int
deriving DecidableEq, Repr

/-- Result of one `buffer_or_send` call: the new buffer state, plus — when a
flush was attempted — the batch of values handed to `send_values` and either
the returned error list or the propagated exception. -/
inductive StepOut where
  | noflush (buf : ValueBuffer)
  | flushed (buf : ValueBuffer) (batch : List Value) (errors : List String)
  | raised (buf : ValueBuffer) (batch : List Value) (msg : String)
deriving DecidableEq, Repr

/-- The buffer state after a `buffer_or_send` call (in the `raised` case, the
state the Python object is left in when the exception propagates). -/
def StepOut.newBuf : StepOut → ValueBuffer
  | .noflush vb => vb
  | .flushed vb _ _ => vb
  | .raised vb _ _ => vb

/-- The batches submitted to the sink during one call (empty or a singleton). -/
def StepOut.submissions : StepOut → List (List Value)
  | .noflush _ => []
  | .flushed _ batch _ => [batch]
  | .raised _ batch _ => [batch]

/-- Embeds `ValueBuffer.buffer_or_send`.  The sample is appended first; then,
iff `now - self._last_send > self._flush_period_sec`, the whole batch is sent
(`send_values` builds the series and submits).  On a normal return the code
sets `_last_send = now`, logs `res.errors` when non-empty, and clears `_b`;
if the submission raises, the assignment to `_last_send` and the clearing are
never reached, so `_b` keeps the appended batch and `_last_send` is unchanged. -/
def buffer_or_send (sink : List MetricSeries → SinkRes) (now : Int)
    (vb : ValueBuffer) (val : Value) : StepOut :=
  let b := vb.b ++ [val]
  if now - vb.last_send > vb.flush_period_sec then
    match sink (send_values_series b) with
    | .ok errs => .flushed ⟨[], now, vb.flush_period_sec⟩ b errs
    | .exn m => .raised ⟨b, vb.last_send, vb.flush_period_sec⟩ b m
  else
    .noflush ⟨b, vb.last_send, vb.flush_period_sec⟩

/-- A sequence of `buffer_or_send` calls, each given the wall-clock time at
which it happens; returns the final buffer state and the list of submitted
batches in order. -/
def acceptAll (sink : List MetricSeries → SinkRes) :
    ValueBuffer → List (Int × Value) → ValueBuffer × List (List Value)
  | vb, [] => (vb, [])
  | vb, (now, v) :: rest =>
    let o := buffer_or_send sink now vb v
    let r := acceptAll sink o.newBuf rest
    (r.1, o.submissions ++ r.2)

/-- The `homeassistant.const.STATE_UNKNOWN` sentinel. -/
def STATE_UNKNOWN : String := "unknown"

/-- A Python attribute value as stored in `state.attributes`.  The cases the
handler distinguishes are `isinstance(value, (float, int))` — which in Python
also matches `bool`, a subclass of `int` — versus everything else.  `other`
carries the `str()` rendering of an arbitrary non-numeric object. -/
inductive AttrValue where
  | str (s : String)
  | int (n : Int)
  | float (q : ℚ)
  | bool (b : Bool)
  | pyNone
  | other (s : String)
deriving DecidableEq, Repr

/-- Embeds `isinstance(value, (float, int))` (true for `bool` as well). -/
def AttrValue.isNumeric : AttrValue → Bool
  | .int _ => true
  | .float _ => true
  | .bool _ => true
  | _ => false

/-- The number the handler buffers for a numeric attribute:
`int(value) if isinstance(value, bool) else value`. -/
def AttrValue.numValue : AttrValue → ℚ
  | .int n => (n : ℚ)
  | .float q => q
  | .bool b => if b then 1 else 0
  | _ => 0

/-- The `str()` rendering Python applies when the value is interpolated into
an f-string (`{device_class}`, `{state_class}`) or used as the unit. -/
def AttrValue.pyStr : AttrValue → String
  | .str s => s
  | .int n => toString n
  | .float q => toString q
  | .bool b => if b then "True" else "False"
  | .pyNone => "None"
  | .other s => s

/-- Embeds `dict` lookup on the attributes (first matching key). -/
def dictGet (attrs : List (String × AttrValue)) (key : String) : Option AttrValue :=
  (attrs.find? fun kv => kv.1 == key).map Prod.snd

/-- Embeds `attrs.get(key, default)` as used in string position. -/
def dictGetStr (attrs : List (String × AttrValue)) (key dflt : String) : String :=
  match dictGet attrs key with
  | some v => v.pyStr
  | none => dflt

/-- The new-state record the handler reads: `state.domain`, `state.entity_id`,
`state.state`, `state.attributes` (in dict iteration order) and
`state.last_updated_timestamp`. -/
structure StateObj where
  domain : String
  entity_id : String
  state : String
  attributes : List (String × AttrValue)
  last_updated_timestamp : Int
deriving DecidableEq, Repr

/-- Embeds `key.replace(' ', '_')`: every space character becomes an
underscore (the pattern is a single character, so `replace` is a char map). -/
def pyReplaceSpaces (s : String) : String :=
  (s.data.map fun c => if c = ' ' then '_' else c).asString

/-- The base metric name `f"{prefix}.{state.domain}.{device_class}.{state_class}"`. -/
def baseMetric (pfx : String) (st : StateObj) : String :=
  pfx ++ "." ++ st.domain ++ "." ++ dictGetStr st.attributes "device_class" "unknown_device"
      ++ "." ++ dictGetStr st.attributes "state_class" "unknown_state"

/-- The tag list built by the handler: the four formatted tags followed by the
configured default tags. -/
def baseTags (default_tags : List String) (st : StateObj) : List String :=
  ["domain:" ++ st.domain,
   "entity_id:" ++ st.entity_id,
   "device_class:" ++ dictGetStr st.attributes "device_class" "unknown_device",
   "state_class:" ++ dictGetStr st.attributes "state_class" "unknown_state"]
  ++ default_tags

/-- The unit of the primary sample: `attrs.get("unit_of_measurement", "")`. -/
def stateUnit (st : StateObj) : String :=
  dictGetStr st.attributes "unit_of_measurement" ""

/-- Embeds the sample production of `state_changed_listener`.  The collaborator
`state_as_number` returns `none` where the Python helper raises `ValueError`
(caught by the handler, which then returns after the attribute loop).  The
result lists the buffered samples in the order the handler feeds them to
`buffer_or_send`: one per numeric attribute, in attribute iteration order,
then the primary sample when coercion succeeds. -/
def state_changed_listener (pfx : String) (default_tags : List String)
    (state_as_number : StateObj → Option ℚ) (new_state : Option StateObj) : List Value :=
  match new_state with
  | none => []
  | some st =>
    if st.state = STATE_UNKNOWN then []
    else
      (st.attributes.filterMap fun kv =>
        if kv.2.isNumeric then
          some ⟨⟨baseMetric pfx st ++ "." ++ pyReplaceSpaces kv.1,
                 baseTags default_tags st, ""⟩,
                st.last_updated_timestamp, kv.2.numValue⟩
        else none)
      ++ (match state_as_number st with
          | none => []
          | some v => [⟨⟨baseMetric pfx st, baseTags default_tags st, stateUnit st⟩,
                        st.last_updated_timestamp, v⟩])

/-- The attribute samples of one event, written as the spec words them: exactly
the numeric attributes, each mapped to one sample with the suffixed metric
name, the base tags, empty unit, the state's timestamp and the coerced value. -/
def attrSamples (pfx : String) (default_tags : List String) (st : StateObj) : List Value :=
  (st.attributes.filter fun kv => kv.2.isNumeric).map fun kv =>
    ⟨⟨baseMetric pfx st ++ "." ++ pyReplaceSpaces kv.1, baseTags default_tags st, ""⟩,
     st.last_updated_timestamp, kv.2.numValue⟩

/-- The primary-value sample part: empty when coercion fails, otherwise the
single sample with the base metric name, base tags and the state's unit. -/
def primaryPart (pfx : String) (default_tags : List String)
    (state_as_number : StateObj → Option ℚ) (st : StateObj) : List Value :=
  match state_as_number st with
  | none => []
  | some v => [⟨⟨baseMetric pfx st, baseTags default_tags st, stateUnit st⟩,
               st.last_updated_timestamp, v⟩]

/-- Splitter modelling Python `s.split(",")` on the character list: splits at
every comma, keeping empty pieces, and yields `[""]` on the empty string. -/
def splitCommaAux : List Char → List (List Char)
  | [] => [[]]
  | c :: cs =>
    match splitCommaAux cs with
    | [] => [[c]]
    | r :: rs => if c = ',' then [] :: r :: rs else (c :: r) :: rs

/-- Embeds `conf["tags"].split(",")` from `setup`. -/
def parseTags (tags_conf : String) : List String :=
  (splitCommaAux tags_conf.data).map List.asString

/-! ## Lemmas about the stable per-series sort -/

lemma mem_insertPoint {x p : MetricPoint} {l : List MetricPoint} :
    x ∈ insertPoint p l ↔ x = p ∨ x ∈ l := by
  induction l with
  | nil => simp [insertPoint]
  | cons q qs ih =>
    by_cases h : p.timestamp ≤ q.timestamp
    · simp only [insertPoint, if_pos h, List.mem_cons]
    · simp only [insertPoint, if_neg h, List.mem_cons, ih]
      tauto

lemma insertPoint_pairwise {p : MetricPoint} {l : List MetricPoint}
    (hl : l.Pairwise fun a b => a.timestamp ≤ b.timestamp) :
    (insertPoint p l).Pairwise fun a b => a.timestamp ≤ b.timestamp := by
  induction l with
  | nil => simp [insertPoint]
  | cons q qs ih =>
    rcases List.pairwise_cons.1 hl with ⟨hq, hqs⟩
    by_cases h : p.timestamp ≤ q.timestamp
    · rw [insertPoint, if_pos h]
      refine List.pairwise_cons.2 ⟨?_, hl⟩
      intro x hx
      rcases List.mem_cons.1 hx with rfl | hx
      · exact h
      · exact le_trans h (hq x hx)
    · rw [insertPoint, if_neg h]
      refine List.pairwise_cons.2 ⟨?_, ih hqs⟩
      intro x hx
      rcases mem_insertPoint.1 hx with rfl | hx
      · exact le_of_lt (lt_of_not_le h)
      · exact hq x hx

lemma sortPoints_pairwise (l : List MetricPoint) :
    (sortPoints l).Pairwise fun a b => a.timestamp ≤ b.timestamp := by
  induction l with
  | nil => simp [sortPoints]
  | cons p ps ih => exact insertPoint_pairwise ih

lemma insertPoint_perm (p : MetricPoint) (l : List MetricPoint) :
    (insertPoint p l).Perm (p :: l) := by
  induction l with
  | nil => simp [insertPoint]
  | cons q qs ih =>
    by_cases h : p.timestamp ≤ q.timestamp
    · simp [insertPoint, h]
    · rw [insertPoint, if_neg h]
      exact (ih.cons q).trans (List.Perm.swap p q qs)

lemma sortPoints_perm (l : List MetricPoint) : (sortPoints l).Perm l := by
  induction l with
  | nil => simp [sortPoints]
  | cons p ps ih => exact (insertPoint_perm p (sortPoints ps)).trans (ih.cons p)

lemma filter_insertPoint (p : MetricPoint) (l : List MetricPoint) (t : Int) :
    (insertPoint p l).filter (fun q => decide (q.timestamp = t)) =
      if p.timestamp = t then p :: l.filter (fun q => decide (q.timestamp = t))
      else l.filter (fun q => decide (q.timestamp = t)) := by
  induction l with
  | nil =>
    by_cases h : p.timestamp = t <;> simp [insertPoint, List.filter, h]
  | cons q qs ih =>
    by_cases hle : p.timestamp ≤ q.timestamp
    · rw [insertPoint, if_pos hle]
      by_cases h : p.timestamp = t <;> simp [List.filter_cons, h]
    · rw [insertPoint, if_neg hle]
      have hlt : q.timestamp < p.timestamp := lt_of_not_le hle
      by_cases h : p.timestamp = t
      · have hq : ¬ q.timestamp = t := by omega
        simp [List.filter_cons, hq, ih, h]
      · by_cases hq : q.timestamp = t <;> simp [List.filter_cons, hq, ih, h]

lemma filter_sortPoints (l : List MetricPoint) (t : Int) :
    (sortPoints l).filter (fun q => decide (q.timestamp = t)) =
      l.filter (fun q => decide (q.timestamp = t)) := by
  induction l with
  | nil => simp [sortPoints]
  | cons p ps ih =>
    rw [sortPoints, filter_insertPoint]
    by_cases h : p.timestamp = t <;> simp [List.filter_cons, h, ih]

/-! ## Lemmas about the grouping by metric identity -/

lemma mem_insertionKeysAux (vs : List Value) (acc : List MetricId) (a : MetricId) :
    a ∈ vs.foldl (fun ks v => if v.id ∈ ks then ks else ks ++ [v.id]) acc ↔
      a ∈ acc ∨ a ∈ vs.map Value.id := by
  induction vs generalizing acc with
  | nil => simp
  | cons v vs ih =>
    simp only [List.foldl_cons, List.map_cons, List.mem_cons]
    by_cases hv : v.id ∈ acc
    · rw [if_pos hv, ih]
      constructor
      · tauto
      · rintro (h | h | h)
        · exact Or.inl h
        · exact Or.inl (h ▸ hv)
        · exact Or.inr h
    · rw [if_neg hv, ih]
      simp only [List.mem_append, List.mem_singleton]
      tauto

lemma nodup_insertionKeysAux (vs : List Value) (acc : List MetricId) (h : acc.Nodup) :
    (vs.foldl (fun ks v => if v.id ∈ ks then ks else ks ++ [v.id]) acc).Nodup := by
  induction vs generalizing acc with
  | nil => exact h
  | cons v vs ih =>
    simp only [List.foldl_cons]
    by_cases hv : v.id ∈ acc
    · rw [if_pos hv]; exact ih _ h
    · rw [if_neg hv]
      refine ih _ ?_
      simp [List.nodup_append, h, hv]

lemma mem_insertionKeys (values : List Value) (a : MetricId) :
    a ∈ insertionKeys values ↔ a ∈ values.map Value.id := by
  rw [insertionKeys, mem_insertionKeysAux]
  simp

lemma nodup_insertionKeys (values : List Value) : (insertionKeys values).Nodup :=
  nodup_insertionKeysAux values [] List.nodup_nil

/-- Claim C4: within each flush, every built series has its points sorted
non-decreasing by timestamp; the sort is stable — the points of a series are a
permutation of that identity's points in arrival order whose restriction to any
single timestamp is unchanged — and in particular two same-identity samples
added with timestamps 100 then 50 come out as the points [(50, _), (100, _)]. -/
theorem claim_C4 :
    (∀ (values : List Value) (s : MetricSeries), s ∈ send_values_series values →
      (s.points.Pairwise fun a b => a.timestamp ≤ b.timestamp) ∧
      ∃ id, id ∈ values.map Value.id ∧
        s.points = sortPoints (pointsFor values id) ∧
        s.points.Perm (pointsFor values id) ∧
        ∀ t : Int, s.points.filter (fun q => decide (q.timestamp = t)) =
          (pointsFor values id).filter (fun q => decide (q.timestamp = t))) ∧
    send_values_series [⟨⟨"m", ["t:1"], "u"⟩, 100, 1⟩, ⟨⟨"m", ["t:1"], "u"⟩, 50, 2⟩] =
      [⟨"m", [⟨50, 2⟩, ⟨100, 1⟩], ["t:1"], "u", MetricIntakeType.gauge⟩] := by
  constructor
  · intro values s hs
    rcases List.mem_map.1 hs with ⟨id, hid, rfl⟩
    exact ⟨sortPoints_pairwise _, id, (mem_insertionKeys values id).1 hid, rfl,
      sortPoints_perm _, fun t => filter_sortPoints _ t⟩
  · decide

/-- Witness for C4 at a concrete flush: the two-sample batch of the claim. -/
theorem claim_C4_witness :
    (⟨"m", [⟨50, 2⟩, ⟨100, 1⟩], ["t:1"], "u", MetricIntakeType.gauge⟩ : MetricSeries) ∈
        send_values_series [⟨⟨"m", ["t:1"], "u"⟩, 100, 1⟩, ⟨⟨"m", ["t:1"], "u"⟩, 50, 2⟩] ∧
    ([⟨50, 2⟩, ⟨100, 1⟩] : List MetricPoint).Pairwise (fun a b => a.timestamp ≤ b.timestamp) :=
  ⟨by decide,
   (claim_C4.1 [⟨⟨"m", ["t:1"], "u"⟩, 100, 1⟩, ⟨⟨"m", ["t:1"], "u"⟩, 50, 2⟩]
      ⟨"m", [⟨50, 2⟩, ⟨100, 1⟩], ["t:1"], "u", MetricIntakeType.gauge⟩ (by decide)).1⟩

lemma countP_eq_ite_of_nodup (l : List MetricId) (a : MetricId) (h : l.Nodup) :
    l.countP (fun x => decide (x = a)) = if a ∈ l then 1 else 0 := by
  induction l with
  | nil => simp
  | cons b bs ih =>
    rcases List.nodup_cons.1 h with ⟨hb, hbs⟩
    by_cases hba : b = a
    · subst hba
      simp [List.countP_cons, ih hbs, hb]
    · have hab : ¬ a = b := fun hh => hba hh.symm
      simp [List.countP_cons, hba, hab, ih hbs, List.mem_cons]

/-- Claim C1 is refuted as stated by `claim_C1_counterexample` below: tuple
equality on the `tags` field is positional.  This is the amended claim:
`MetricId` equality is componentwise with the tag order significant, and
within one flush exactly one series is built per distinct identity under that
rule (so equal identities merge, and identities differing only in tag order
do not). -/
theorem claim_C1 :
    (∀ i j : MetricId, i = j ↔ i.name = j.name ∧ i.tags = j.tags ∧ i.unit = j.unit) ∧
    ∀ (values : List Value) (id : MetricId),
      (send_values_series values).countP
          (fun s => decide (s.metric = id.name ∧ s.tags = id.tags ∧ s.unit = id.unit)) =
        if id ∈ values.map Value.id then 1 else 0 := by
  constructor
  · intro i j
    cases i
    cases j
    simp [MetricId.mk.injEq]
  · intro values id
    rw [send_values_series, List.countP_map]
    have hcong : ∀ k ∈ insertionKeys values,
        ((fun s : MetricSeries =>
            decide (s.metric = id.name ∧ s.tags = id.tags ∧ s.unit = id.unit)) ∘
          fun k : MetricId =>
            (⟨k.name, sortPoints (pointsFor values k), k.tags, k.unit,
              MetricIntakeType.gauge⟩ : MetricSeries)) k = true ↔
        (fun x : MetricId => decide (x = id)) k = true := by
      intro k _
      simp only [Function.comp_apply, decide_eq_true_eq]
      constructor
      · rintro ⟨h1, h2, h3⟩
        cases k
        cases id
        simp_all
      · rintro rfl
        exact ⟨rfl, rfl, rfl⟩
    rw [List.countP_congr hcong,
      countP_eq_ite_of_nodup _ _ (nodup_insertionKeys values)]
    by_cases hmem : id ∈ values.map Value.id
    · rw [if_pos ((mem_insertionKeys values id).2 hmem), if_pos hmem]
    · rw [if_neg (fun hh => hmem ((mem_insertionKeys values id).1 hh)), if_neg hmem]

/-- Counterexample to claim C1 as stated: with tags compared as unordered
sets, the identities `("m", ("a","b"), "")` and `("m", ("b","a"), "")` would
be equal and their samples would merge into one series; in the code the two
namedtuples are distinct keys and the flush builds two series. -/
theorem claim_C1_counterexample :
    ¬ (∀ i j : MetricId,
        i = j ↔ i.name = j.name ∧ (∀ t, t ∈ i.tags ↔ t ∈ j.tags) ∧ i.unit = j.unit) ∧
    (send_values_series
        [⟨⟨"m", ["a", "b"], ""⟩, 1, 1⟩, ⟨⟨"m", ["b", "a"], ""⟩, 2, 2⟩]).length = 2 := by
  constructor
  · intro h
    have heq := (h ⟨"m", ["a", "b"], ""⟩ ⟨"m", ["b", "a"], ""⟩).2
      ⟨rfl, by intro t; simp [List.mem_cons]; tauto, rfl⟩
    have : (["a", "b"] : List String) = ["b", "a"] := congrArg MetricId.tags heq
    simp at this
  · decide

/-! ## Lemmas about the flush buffer -/

lemma acceptAll_append (sink : List MetricSeries → SinkRes) (vb : ValueBuffer)
    (l1 l2 : List (Int × Value)) :
    acceptAll sink vb (l1 ++ l2) =
      ((acceptAll sink (acceptAll sink vb l1).1 l2).1,
       (acceptAll sink vb l1).2 ++ (acceptAll sink (acceptAll sink vb l1).1 l2).2) := by
  induction l1 generalizing vb with
  | nil => simp [acceptAll]
  | cons c rest ih =>
    obtain ⟨now, v⟩ := c
    simp [acceptAll, ih, List.append_assoc]

lemma acceptAll_no_flush (sink : List MetricSeries → SinkRes)
    (calls : List (Int × Value)) (b0 : List Value) (ls per : Int)
    (h : ∀ c ∈ calls, c.1 - ls ≤ per) :
    acceptAll sink ⟨b0, ls, per⟩ calls = (⟨b0 ++ calls.map Prod.snd, ls, per⟩, []) := by
  induction calls generalizing b0 with
  | nil => simp [acceptAll]
  | cons c rest ih =>
    obtain ⟨now, v⟩ := c
    have hc : now - ls ≤ per := h (now, v) (List.mem_cons_self _ _)
    have hrest : ∀ c ∈ rest, c.1 - ls ≤ per := fun c hc' => h c (List.mem_cons_of_mem _ hc')
    simp only [acceptAll, buffer_or_send, if_neg (not_lt.2 hc), StepOut.newBuf,
      StepOut.submissions, List.nil_append, ih (b0 ++ [v]) hrest, List.map_cons]
    simp

/-- Claim C2: every `buffer_or_send` call appends the sample first and submits
to the sink exactly when `now - last_send > flush_period_sec`, the submitted
batch being the whole buffer including the sample just accepted; across a
sequence of calls that never exceed the threshold no submission happens, and
the first call past the threshold makes exactly one submission carrying every
buffered sample, after which the buffer is empty. -/
theorem claim_C2 (sink : List MetricSeries → SinkRes) (b0 : List Value) (ls per : Int)
    (calls : List (Int × Value)) (now : Int) (v : Value) (errs : List String)
    (hcalls : ∀ c ∈ calls, c.1 - ls ≤ per)
    (hnow : now - ls > per)
    (hsink : sink (send_values_series (b0 ++ calls.map Prod.snd ++ [v])) = SinkRes.ok errs) :
    (∀ (n : Int) (vb : ValueBuffer) (u : Value),
        (buffer_or_send sink n vb u).submissions =
          if n - vb.last_send > vb.flush_period_sec then [vb.b ++ [u]] else []) ∧
    acceptAll sink ⟨b0, ls, per⟩ (calls ++ [(now, v)]) =
      (⟨[], now, per⟩, [b0 ++ calls.map Prod.snd ++ [v]]) := by
  constructor
  · intro n vb u
    by_cases h : n - vb.last_send > vb.flush_period_sec
    · rw [buffer_or_send, if_pos h]
      cases sink (send_values_series (vb.b ++ [u])) <;>
        simp [StepOut.submissions, if_pos h]
    · rw [buffer_or_send, if_neg h, if_neg h]
      rfl
  · rw [acceptAll_append, acceptAll_no_flush sink calls b0 ls per hcalls]
    simp only [acceptAll, buffer_or_send, if_pos hnow, List.append_assoc] at *
    rw [hsink]
    simp [acceptAll, StepOut.newBuf, StepOut.submissions]

/-- Claim C3: when the flush predicate holds and the sink call returns — with
an empty or non-empty error list alike — the call ends with an empty batch and
`last_send` set to the flush time, the reported batch never being re-buffered. -/
theorem claim_C3 (sink : List MetricSeries → SinkRes) (now : Int)
    (vb : ValueBuffer) (val : Value) (errs : List String)
    (hdue : now - vb.last_send > vb.flush_period_sec)
    (hsink : sink (send_values_series (vb.b ++ [val])) = SinkRes.ok errs) :
    buffer_or_send sink now vb val =
      StepOut.flushed ⟨[], now, vb.flush_period_sec⟩ (vb.b ++ [val]) errs := by
  rw [buffer_or_send, if_pos hdue, hsink]

/-- Claim C8: a `buffer_or_send` call propagates an exception exactly when the
flush predicate made it call the sink and that submission raised. -/
theorem claim_C8 (sink : List MetricSeries → SinkRes) (now : Int)
    (vb : ValueBuffer) (val : Value) :
    (∃ vb2 batch m, buffer_or_send sink now vb val = StepOut.raised vb2 batch m) ↔
      (now - vb.last_send > vb.flush_period_sec ∧
       ∃ m, sink (send_values_series (vb.b ++ [val])) = SinkRes.exn m) := by
  by_cases hdue : now - vb.last_send > vb.flush_period_sec
  · rw [buffer_or_send, if_pos hdue]
    cases hres : sink (send_values_series (vb.b ++ [val])) with
    | ok errs =>
      simp only [hres]
      constructor
      · rintro ⟨vb2, batch, m, h⟩
        exact absurd h (by simp)
      · rintro ⟨-, m, h⟩
        exact absurd h (by simp)
    | exn m =>
      simp only [hres]
      exact ⟨fun _ => ⟨hdue, m, rfl⟩, fun _ => ⟨_, _, _, rfl⟩⟩
  · rw [buffer_or_send, if_neg hdue]
    constructor
    · rintro ⟨vb2, batch, m, h⟩
      exact absurd h (by simp)
    · rintro ⟨h, -⟩
      exact absurd h hdue

/-- Claim C10: if the sink raises during a flush, the buffer keeps the whole
appended batch and `last_send` is unchanged, so any later call (at a time not
earlier than the failed one) finds the flush predicate true again and submits
the full batch extended by its own sample. -/
theorem claim_C10 (sink : List MetricSeries → SinkRes) (now now2 : Int)
    (vb : ValueBuffer) (val val2 : Value) (m : String)
    (hdue : now - vb.last_send > vb.flush_period_sec)
    (hexn : sink (send_values_series (vb.b ++ [val])) = SinkRes.exn m)
    (hlater : now ≤ now2) :
    buffer_or_send sink now vb val =
      StepOut.raised ⟨vb.b ++ [val], vb.last_send, vb.flush_period_sec⟩ (vb.b ++ [val]) m ∧
    now2 - vb.last_send > vb.flush_period_sec ∧
    (buffer_or_send sink now2
        ⟨vb.b ++ [val], vb.last_send, vb.flush_period_sec⟩ val2).submissions =
      [vb.b ++ [val] ++ [val2]] := by
  have hdue2 : now2 - vb.last_send > vb.flush_period_sec := by omega
  refine ⟨?_, hdue2, ?_⟩
  · rw [buffer_or_send, if_pos hdue, hexn]
  · rw [buffer_or_send]
    simp only [if_pos hdue2]
    cases sink (send_values_series (vb.b ++ [val] ++ [val2])) <;> rfl

/-- Concrete samples used by the buffer witnesses. -/
def wSampleA : Value := ⟨⟨"m.a", ["t:1"], ""⟩, 5, 1⟩

def wSampleB : Value := ⟨⟨"m.a", ["t:1"], ""⟩, 6, 2⟩

def wSampleC : Value := ⟨⟨"m.b", ["t:1"], "C"⟩, 7, 3⟩

/-- Witness for C2: one call at time 10 buffers, the call at time 100 flushes
both samples and empties the buffer. -/
theorem claim_C2_witness :
    (∀ c ∈ [((10 : Int), wSampleA)], c.1 - 0 ≤ 60) ∧ ((100 : Int) - 0 > 60) ∧
    acceptAll (fun _ => SinkRes.ok []) ⟨[], 0, 60⟩ [(10, wSampleA), (100, wSampleB)] =
      (⟨[], 100, 60⟩, [[wSampleA, wSampleB]]) :=
  ⟨by decide, by decide,
   (claim_C2 (fun _ => SinkRes.ok []) [] 0 60 [(10, wSampleA)] 100 wSampleB []
      (by decide) (by decide) rfl).2⟩

/-- Witness for C3: a flush whose sink reports one error still clears the
batch and advances the last-flush timestamp. -/
theorem claim_C3_witness :
    ((100 : Int) - 0 > 60) ∧
    buffer_or_send (fun _ => SinkRes.ok ["datadog error"]) 100
        ⟨[wSampleA], 0, 60⟩ wSampleB =
      StepOut.flushed ⟨[], 100, 60⟩ [wSampleA, wSampleB] ["datadog error"] :=
  ⟨by decide,
   claim_C3 (fun _ => SinkRes.ok ["datadog error"]) 100 ⟨[wSampleA], 0, 60⟩ wSampleB
     ["datadog error"] (by decide) rfl⟩

/-- Witness for C10: a raising sink leaves the appended batch and the old
timestamp in place, and the next call re-submits the grown batch. -/
theorem claim_C10_witness :
    ((100 : Int) - 0 > 60) ∧ ((100 : Int) ≤ 150) ∧
    (buffer_or_send (fun _ => SinkRes.exn "connection refused") 100
          ⟨[wSampleA], 0, 60⟩ wSampleB =
        StepOut.raised ⟨[wSampleA, wSampleB], 0, 60⟩ [wSampleA, wSampleB]
          "connection refused" ∧
      (150 : Int) - 0 > 60 ∧
      (buffer_or_send (fun _ => SinkRes.exn "connection refused") 150
          ⟨[wSampleA, wSampleB], 0, 60⟩ wSampleC).submissions =
        [[wSampleA, wSampleB, wSampleC]]) :=
  ⟨by decide, by decide,
   claim_C10 (fun _ => SinkRes.exn "connection refused") 100 150 ⟨[wSampleA], 0, 60⟩
     wSampleB wSampleC "connection refused" (by decide) rfl (by decide)⟩

/-! ## Lemmas about the event handler -/

lemma filterMap_if_eq {α β : Type} (p : α → Bool) (g : α → β) (l : List α) :
    l.filterMap (fun x => if p x then some (g x) else none) = (l.filter p).map g := by
  induction l with
  | nil => rfl
  | cons a as ih =>
    by_cases h : p a <;> simp [List.filterMap_cons, List.filter_cons, h, ih]

lemma listener_split (pfx : String) (dts : List String) (san : StateObj → Option ℚ)
    (st : StateObj) (h : ¬ st.state = STATE_UNKNOWN) :
    state_changed_listener pfx dts san (some st) =
      attrSamples pfx dts st ++ primaryPart pfx dts san st := by
  simp only [state_changed_listener, if_neg h, attrSamples, primaryPart]
  rw [filterMap_if_eq]

lemma mem_listener_tags (pfx : String) (dts : List String) (san : StateObj → Option ℚ)
    (ev : Option StateObj) (v : Value) (hv : v ∈ state_changed_listener pfx dts san ev) :
    ∃ st, ev = some st ∧ v.id.tags = baseTags dts st := by
  cases ev with
  | none => simp [state_changed_listener] at hv
  | some st =>
    refine ⟨st, rfl, ?_⟩
    rw [state_changed_listener] at hv
    by_cases h : st.state = STATE_UNKNOWN
    · rw [if_pos h] at hv
      simp at hv
    · rw [if_neg h] at hv
      rcases List.mem_append.1 hv with hv | hv
      · rcases List.mem_filterMap.1 hv with ⟨kv, -, hkv⟩
        by_cases hn : kv.2.isNumeric
        · rw [if_pos hn] at hkv
          injection hkv with h2
          subst h2
          rfl
        · rw [if_neg hn] at hkv
          cases hkv
      · cases hsan : san st with
        | none =>
          rw [hsan] at hv
          simp at hv
        | some q =>
          rw [hsan] at hv
          simp at hv
          subst hv
          rfl

/-- Claim C5: for a usable new-state, the emitted samples are exactly one per
numeric attribute (integers, floats, booleans — booleans coerced to 0/1), in
attribute order, with metric name `base.<key with spaces underscored>`, the
base tags, empty unit and the state's timestamp, followed only by the
primary-value part; non-numeric attributes contribute nothing. -/
theorem claim_C5 (pfx : String) (dts : List String) (san : StateObj → Option ℚ)
    (st : StateObj) (h : ¬ st.state = STATE_UNKNOWN) :
    state_changed_listener pfx dts san (some st) =
      ((st.attributes.filter fun kv => kv.2.isNumeric).map fun kv =>
        (⟨⟨baseMetric pfx st ++ "." ++ pyReplaceSpaces kv.1, baseTags dts st, ""⟩,
          st.last_updated_timestamp, kv.2.numValue⟩ : Value))
      ++ primaryPart pfx dts san st := by
  rw [listener_split pfx dts san st h]
  rfl

/-- Concrete event used by the C5 and C7 witnesses: one int-valued attribute
with a space in its name, one boolean attribute, one string attribute. -/
def wState : StateObj :=
  { domain := "sensor", entity_id := "sensor.x", state := "7",
    attributes := [("battery level", .int 55), ("moving", .bool true),
                   ("friendly", .str "X")],
    last_updated_timestamp := 42 }

/-- Base tags of `wState` with default tags `["env:prod"]`. -/
def wTags : List String :=
  ["domain:sensor", "entity_id:sensor.x", "device_class:unknown_device",
   "state_class:unknown_state", "env:prod"]

/-- Coercion collaborator used by the C5 witness. -/
def wCoerce : StateObj → Option ℚ := fun st => if st.state = "7" then some 7 else none

/-- Witness for C5: the int attribute gives 55, the boolean gives 1, the
string attribute gives nothing, and the primary sample follows. -/
theorem claim_C5_witness :
    ¬ wState.state = STATE_UNKNOWN ∧
    state_changed_listener "p" ["env:prod"] wCoerce (some wState) =
      [⟨⟨"p.sensor.unknown_device.unknown_state.battery_level", wTags, ""⟩, 42, 55⟩,
       ⟨⟨"p.sensor.unknown_device.unknown_state.moving", wTags, ""⟩, 42, 1⟩,
       ⟨⟨"p.sensor.unknown_device.unknown_state", wTags, ""⟩, 42, 7⟩] := by
  refine ⟨by decide, ?_⟩
  rw [claim_C5 "p" ["env:prod"] wCoerce wState (by decide)]
  rfl

/-- The §8 example event: domain `sensor`, entity `sensor.temp1`, state
`"21.5"`, attributes device_class/unit_of_measurement/battery. -/
def exState : StateObj :=
  { domain := "sensor", entity_id := "sensor.temp1", state := "21.5",
    attributes := [("device_class", .str "temperature"),
                   ("unit_of_measurement", .str "C"),
                   ("battery", .int 55)],
    last_updated_timestamp := 1000 }

/-- The §8 example coercion: `"21.5"` parses to the rational 43/2. -/
def exCoerce : StateObj → Option ℚ :=
  fun st => if st.state = "21.5" then some (43 / 2 : ℚ) else none

/-- The §8 example tag set. -/
def exTags : List String :=
  ["domain:sensor", "entity_id:sensor.temp1", "device_class:temperature",
   "state_class:unknown_state", "env:prod"]

/-- Claim C6: when the primary coercion succeeds, exactly one more sample is
emitted after all attribute samples, named by the base metric name
`<prefix>.<domain>.<device_class>.<state_class>` (with the unknown defaults),
with the base tags, the `unit_of_measurement` unit (or empty), the state's
timestamp and the coerced value; the §8 example yields exactly its two listed
samples. -/
theorem claim_C6 (pfx : String) (dts : List String) (san : StateObj → Option ℚ)
    (st : StateObj) (v : ℚ) (h : ¬ st.state = STATE_UNKNOWN) (hs : san st = some v) :
    state_changed_listener pfx dts san (some st) =
      attrSamples pfx dts st ++
        [⟨⟨baseMetric pfx st, baseTags dts st, stateUnit st⟩,
          st.last_updated_timestamp, v⟩] ∧
    state_changed_listener "hass.datadog" ["env:prod"] exCoerce (some exState) =
      [⟨⟨"hass.datadog.sensor.temperature.unknown_state.battery", exTags, ""⟩, 1000, 55⟩,
       ⟨⟨"hass.datadog.sensor.temperature.unknown_state", exTags, "C"⟩, 1000, 43 / 2⟩] := by
  constructor
  · rw [listener_split pfx dts san st h]
    simp only [primaryPart, hs]
  · rfl

/-- Witness for C6 at the §8 example event. -/
theorem claim_C6_witness :
    ¬ exState.state = STATE_UNKNOWN ∧ exCoerce exState = some (43 / 2 : ℚ) ∧
    (state_changed_listener "hass.datadog" ["env:prod"] exCoerce (some exState) =
        attrSamples "hass.datadog" ["env:prod"] exState ++
          [⟨⟨baseMetric "hass.datadog" exState, baseTags ["env:prod"] exState,
             stateUnit exState⟩, exState.last_updated_timestamp, 43 / 2⟩] ∧
      state_changed_listener "hass.datadog" ["env:prod"] exCoerce (some exState) =
        [⟨⟨"hass.datadog.sensor.temperature.unknown_state.battery", exTags, ""⟩, 1000, 55⟩,
         ⟨⟨"hass.datadog.sensor.temperature.unknown_state", exTags, "C"⟩, 1000, 43 / 2⟩]) :=
  ⟨by decide, rfl,
   claim_C6 "hass.datadog" ["env:prod"] exCoerce exState (43 / 2) (by decide) rfl⟩

/-- Claim C7: when the primary coercion fails, only the attribute samples are
emitted — the primary value contributes nothing and the attribute samples are
unaffected.  The handler catches the `ValueError` (modelled by the collaborator
returning `none`), so it returns normally: the embedding is a total function. -/
theorem claim_C7 (pfx : String) (dts : List String) (san : StateObj → Option ℚ)
    (st : StateObj) (h : ¬ st.state = STATE_UNKNOWN) (hs : san st = none) :
    state_changed_listener pfx dts san (some st) = attrSamples pfx dts st := by
  rw [listener_split pfx dts san st h]
  simp [primaryPart, hs]

/-- Coercion collaborator that always fails. -/
def wCoerceNone : StateObj → Option ℚ := fun _ => none

/-- Witness for C7: with a failing coercion, `wState` still yields its two
attribute samples and nothing else. -/
theorem claim_C7_witness :
    ¬ wState.state = STATE_UNKNOWN ∧ wCoerceNone wState = none ∧
    state_changed_listener "p" ["env:prod"] wCoerceNone (some wState) =
      attrSamples "p" ["env:prod"] wState :=
  ⟨by decide, rfl, claim_C7 "p" ["env:prod"] wCoerceNone wState (by decide) rfl⟩

lemma splitCommaAux_ne_nil (cs : List Char) : splitCommaAux cs ≠ [] := by
  induction cs with
  | nil => simp [splitCommaAux]
  | cons c cs ih =>
    rw [splitCommaAux]
    cases h : splitCommaAux cs with
    | nil => simp
    | cons r rs => by_cases hc : c = ',' <;> simp [hc]

/-- Claim C9: the default tag list parsed from the empty configured tag string
is `[""]`, every sample the handler then emits carries a tag list ending in
the empty-string tag, and for any configured string the parsed list is
non-empty (Python `split` with an explicit separator never returns `[]`). -/
theorem claim_C9 :
    (∀ s : String, parseTags s ≠ []) ∧
    parseTags "" = [""] ∧
    ∀ (pfx : String) (san : StateObj → Option ℚ) (ev : Option StateObj) (v : Value),
      v ∈ state_changed_listener pfx (parseTags "") san ev →
      v.id.tags.getLast? = some "" := by
  refine ⟨?_, rfl, ?_⟩
  · intro s hnil
    rw [parseTags, List.map_eq_nil_iff] at hnil
    exact splitCommaAux_ne_nil s.data hnil
  · intro pfx san ev v hv
    rcases mem_listener_tags pfx (parseTags "") san ev v hv with ⟨st, -, htags⟩
    rw [htags]
    rfl

/-- Concrete event for the C9 witness. -/
def wState9 : StateObj :=
  { domain := "sensor", entity_id := "sensor.x", state := "abc",
    attributes := [("battery", .int 5)],
    last_updated_timestamp := 9 }

/-- The sample `wState9` emits under an empty tags configuration. -/
def wSample9 : Value :=
  ⟨⟨"p.sensor.unknown_device.unknown_state.battery",
    ["domain:sensor", "entity_id:sensor.x", "device_class:unknown_device",
     "state_class:unknown_state", ""], ""⟩, 9, 5⟩

/-- Witness for C9: the emitted sample's tag list ends with the empty tag. -/
theorem claim_C9_witness :
    wSample9 ∈ state_changed_listener "p" (parseTags "") wCoerceNone (some wState9) ∧
    wSample9.id.tags.getLast? = some "" :=
  ⟨by decide, claim_C9.2.2 "p" wCoerceNone (some wState9) wSample9 (by decide)⟩

end DatadogForwarder
